import Mathlib

/-
Verification of the Oscillation repository (simple-harmonic-motion simulator).

The model class lives in src/Shm.py (class Shm); src/Main.py holds a near-identical
legacy duplicate (class shm) that additionally maintains the summary statistics
amp / maxv / maxa inside its computeshm and auto-recomputes after every edit.
Both are embedded below: Shm for Shm.py and MShm for Main.py.

numpy float arrays are modelled as a length together with an entry function over ℝ;
Python floats are modelled as real numbers, math.cos as Real.cos.
Attributes that do not exist until first assigned in Python (step_size, ke, pe,
totale, amp, maxv, maxa) are modelled as Option fields initialised to none.
ValueError raised by Shm.editshm is modelled with Except; in the source every
raise happens before any assignment in its branch, so returning the error with
no new state is faithful.
-/

noncomputable section

/-- Model of a numpy float array: its allocated length and its entries.
Reads and writes used by the claims are all in bounds. -/
structure NArr where
  size : ℕ
  val : ℕ → ℝ

/-- np.zeros(n): n entries, all 0.0. -/
def NArr.zeros (n : ℕ) : NArr := ⟨n, fun _ => 0⟩

/-- a[i] (read). -/
def NArr.get (a : NArr) (i : ℕ) : ℝ := a.val i

/-- a[i] = r (write): the length is unchanged. -/
def NArr.set (a : NArr) (i : ℕ) (r : ℝ) : NArr :=
  ⟨a.size, fun j => if j = i then r else a.val j⟩

/-- Scalar times array, elementwise (numpy broadcasting). -/
def NArr.smul (c : ℝ) (a : NArr) : NArr := ⟨a.size, fun i => c * a.val i⟩

/-- a ** 2, elementwise. -/
def NArr.sq (a : NArr) : NArr := ⟨a.size, fun i => a.val i ^ 2⟩

/-- Elementwise sum of two arrays of the same shape. -/
def NArr.add (a b : NArr) : NArr := ⟨a.size, fun i => a.val i + b.val i⟩

/-- Python max over the entries of a (nonempty) array. -/
def NArr.maxVal (a : NArr) : ℝ := ((List.range a.size).map a.val).foldl max (a.val 0)

/-- State of class Shm (src/Shm.py): scalar parameters and the trajectory arrays
x (position), v (velocity), a (acceleration), t (time). -/
structure Shm where
  k : ℝ
  mass : ℝ
  steps : ℕ
  time : ℝ
  b : ℝ
  F0 : ℝ
  drive_freq : ℝ
  step_size : Option ℝ
  x : NArr
  v : NArr
  a : NArr
  t : NArr
  ke : Option NArr
  pe : Option NArr
  totale : Option NArr

/-- Shm.__init__ (src/Shm.py lines 39-60).  Python defaults are
init_v = 0.0, steps = 10000, time = 10.0, b = 0.0, F0 = 0.0, drive_freq = 0.1;
the embedding takes every argument explicitly.  If F0 == 0.0 the stored
drive_freq is forced to 0.0.  The four arrays are allocated zero-filled at
length steps + 1 and the index-0 initial conditions are written. -/
def Shm.init (k mass init_pos init_v : ℝ) (steps : ℕ) (time b F0 drive_freq : ℝ) : Shm :=
  { k := k
    mass := mass
    steps := steps
    time := time
    b := b
    F0 := F0
    drive_freq := if F0 = 0 then 0 else drive_freq
    step_size := none
    x := (NArr.zeros (steps + 1)).set 0 init_pos
    v := (NArr.zeros (steps + 1)).set 0 init_v
    a := (NArr.zeros (steps + 1)).set 0 0
    t := (NArr.zeros (steps + 1)).set 0 0
    ke := none
    pe := none
    totale := none }

/-- One iteration of the loop body of Shm.compshm at index i
(src/Shm.py lines 67-71): x[i] is written first and the v update reads the
already-written x[i] (Euler-Cromer coupling), then a[i] and t[i]. -/
def Shm.tick (s : Shm) (ss : ℝ) (i : ℕ) : Shm :=
  let x' := s.x.set i (s.x.get (i - 1) + s.v.get (i - 1) * ss)
  let v' := s.v.set i (s.v.get (i - 1) +
    (s.F0 * Real.cos (s.drive_freq * (i : ℝ) * ss) -
      s.b * s.v.get (i - 1) - s.k * x'.get i) * ss / s.mass)
  let a' := s.a.set i ((v'.get i - s.v.get (i - 1)) / ss)
  let t' := s.t.set i (s.t.get (i - 1) + ss)
  { s with x := x', v := v', a := a', t := t' }

/-- Iterations 1..n of the compshm loop, in increasing order. -/
def Shm.loopTo (s : Shm) (ss : ℝ) : ℕ → Shm
  | 0 => s
  | n + 1 => (s.loopTo ss n).tick ss (n + 1)

/-- Shm.compshm (src/Shm.py lines 62-71): sets step_size = time / steps, then
runs the loop for i in range(1, steps + 1). -/
def Shm.compshm (s : Shm) : Shm :=
  Shm.loopTo { s with step_size := some (s.time / (s.steps : ℝ)) }
    (s.time / (s.steps : ℝ)) s.steps

/-- The error raised by Shm.editshm (Python ValueError with a message). -/
inductive ShmError where
  | invalidParameter : String → ShmError

/-- Shm.editshm (src/Shm.py lines 73-106).  A global guard first rejects any
negative value unless the parameter is F0, init_v or init_pos; then each branch
rejects value == 0 for k, mass, steps and time before assigning.  steps stores
int(value); that branch is reached only for value > 0, where Python int()
truncation is the floor, and steps is modelled as ℕ.  Unrecognized names are a
silent no-op.  No branch mutates before raising, so the error result carries no
new state. -/
def Shm.editshm (s : Shm) (parameter : String) (value : ℝ) : Except ShmError Shm :=
  if value < 0 ∧ parameter ≠ ("F0") ∧ parameter ≠ ("init_v") ∧ parameter ≠ ("init_pos") then
    Except.error (ShmError.invalidParameter
      (("Entry value must be non-negative except for initial position, velocity and driving force: ")
        ++ parameter))
  else if parameter = ("k") then
    if value = 0 then
      Except.error (ShmError.invalidParameter ("Force constant must be greater than zero"))
    else Except.ok { s with k := value }
  else if parameter = ("mass") then
    if value = 0 then
      Except.error (ShmError.invalidParameter ("Mass must be greater than zero"))
    else Except.ok { s with mass := value }
  else if parameter = ("steps") then
    if value = 0 then
      Except.error (ShmError.invalidParameter ("There must be at least one step"))
    else Except.ok { s with steps := (⌊value⌋).toNat }
  else if parameter = ("time") then
    if value = 0 then
      Except.error (ShmError.invalidParameter ("Time duration is not specified"))
    else Except.ok { s with time := value }
  else if parameter = ("b") then Except.ok { s with b := value }
  else if parameter = ("F0") then Except.ok { s with F0 := value }
  else if parameter = ("drive_freq") then Except.ok { s with drive_freq := value }
  else if parameter = ("init_pos") then Except.ok { s with x := s.x.set 0 value }
  else if parameter = ("init_v") then Except.ok { s with v := s.v.set 0 value }
  else if parameter = ("step_size") then
    Except.ok { s with step_size := some value, time := value * (s.steps : ℝ) }
  else Except.ok s

/-- Shm.compenergy (src/Shm.py lines 152-156): elementwise
ke = 0.5 * mass * v ** 2, pe = 0.5 * k * x ** 2, totale = ke + pe. -/
def Shm.compenergy (s : Shm) : Shm :=
  let keA := NArr.smul (0.5 * s.mass) (NArr.sq s.v)
  let peA := NArr.smul (0.5 * s.k) (NArr.sq s.x)
  { s with ke := some keA, pe := some peA, totale := some (NArr.add keA peA) }

/-- The scan at the start of Shm.plotenergy (src/Shm.py lines 160-165), from
index i upward: for i in range(steps), the first index with
totale[i] <= totale[0] * 0.01 yields t[i] and breaks; otherwise time. -/
def noenergyFrom (time : ℝ) (t te : NArr) (steps i : ℕ) : ℝ :=
  if h : i < steps then
    if te.get i ≤ te.get 0 * 0.01 then t.get i else noenergyFrom time t te steps (i + 1)
  else time
termination_by steps - i
decreasing_by omega

/-- The energy-decay cutoff computed by Shm.plotenergy; none models reading
self.totale before compenergy ever ran (Python AttributeError). -/
def Shm.plotenergyCut (s : Shm) : Option ℝ :=
  s.totale.map (fun te => noenergyFrom s.time s.t te s.steps 0)

/-- State of the legacy class shm (src/Main.py): the same fields as Shm plus the
summary statistics amp, maxv, maxa that its computeshm maintains. -/
structure MShm extends Shm where
  amp : Option ℝ
  maxv : Option ℝ
  maxa : Option ℝ

/-- shm.__init__ (src/Main.py lines 36-54): identical to Shm.__init__ except
that drive_freq is stored unconditionally (no forcing to 0 when F0 == 0). -/
def MShm.init (k mass init_pos init_v : ℝ) (steps : ℕ) (time b F0 drive_freq : ℝ) : MShm :=
  { k := k
    mass := mass
    steps := steps
    time := time
    b := b
    F0 := F0
    drive_freq := drive_freq
    step_size := none
    x := (NArr.zeros (steps + 1)).set 0 init_pos
    v := (NArr.zeros (steps + 1)).set 0 init_v
    a := (NArr.zeros (steps + 1)).set 0 0
    t := (NArr.zeros (steps + 1)).set 0 0
    ke := none
    pe := none
    totale := none
    amp := none
    maxv := none
    maxa := none }

/-- shm.computeshm (src/Main.py lines 57-70): lines 59-66 are character-for-
character the loop of Shm.compshm (shared here through Shm.compshm); lines
68-70 then recompute amp = max(x), maxv = max(v), maxa = max(a). -/
def MShm.computeshm (m : MShm) : MShm :=
  let s' := m.toShm.compshm
  { toShm := s'
    amp := some (s'.x.maxVal)
    maxv := some (s'.v.maxVal)
    maxa := some (s'.a.maxVal) }

/-- Scenario A instance: Shm(1.0, 1.0, 1.0, init_v=0.0, steps=4, time=4.0),
undamped, undriven (spec section 8). -/
def shmA : Shm := Shm.init 1 1 1 0 4 4 0 0 0.1

/-- An instance built with the Python default steps=10000, time=10.0, used for
the stepCount boundary scenario. -/
def shmDefault : Shm := Shm.init 1 1 1 0 10000 10 0 0 0.1

/-- Main.py instance for the summary-statistics claim, same parameters as
Scenario A. -/
def mshmA : MShm := MShm.init 1 1 1 0 4 4 0 0 0.1

end

@[simp] theorem NArr.size_zeros (n : ℕ) : (NArr.zeros n).size = n := rfl

@[simp] theorem NArr.size_set (a : NArr) (i : ℕ) (r : ℝ) : (a.set i r).size = a.size := rfl

@[simp] theorem NArr.get_zeros (n i : ℕ) : (NArr.zeros n).get i = 0 := rfl

theorem NArr.get_set (a : NArr) (i j : ℕ) (r : ℝ) :
    (a.set i r).get j = if j = i then r else a.get j := rfl

@[simp] theorem NArr.get_set_self (a : NArr) (i : ℕ) (r : ℝ) : (a.set i r).get i = r := by
  simp [NArr.get_set]

theorem NArr.get_set_ne (a : NArr) {i j : ℕ} (r : ℝ) (h : j ≠ i) :
    (a.set i r).get j = a.get j := by simp [NArr.get_set, h]

@[simp] theorem NArr.size_smul (c : ℝ) (a : NArr) : (NArr.smul c a).size = a.size := rfl

@[simp] theorem NArr.size_sq (a : NArr) : (NArr.sq a).size = a.size := rfl

@[simp] theorem NArr.size_add (a b : NArr) : (NArr.add a b).size = a.size := rfl

@[simp] theorem NArr.get_smul (c : ℝ) (a : NArr) (i : ℕ) :
    (NArr.smul c a).get i = c * a.get i := rfl

@[simp] theorem NArr.get_sq (a : NArr) (i : ℕ) : (NArr.sq a).get i = a.get i ^ 2 := rfl

@[simp] theorem NArr.get_add (a b : NArr) (i : ℕ) :
    (NArr.add a b).get i = a.get i + b.get i := rfl

theorem Shm.tick_scalars (s : Shm) (ss : ℝ) (i : ℕ) :
    (s.tick ss i).k = s.k ∧ (s.tick ss i).mass = s.mass ∧ (s.tick ss i).steps = s.steps ∧
    (s.tick ss i).time = s.time ∧ (s.tick ss i).b = s.b ∧ (s.tick ss i).F0 = s.F0 ∧
    (s.tick ss i).drive_freq = s.drive_freq ∧ (s.tick ss i).step_size = s.step_size ∧
    (s.tick ss i).ke = s.ke ∧ (s.tick ss i).pe = s.pe ∧ (s.tick ss i).totale = s.totale := by
  exact ⟨rfl, rfl, rfl, rfl, rfl, rfl, rfl, rfl, rfl, rfl, rfl⟩

theorem Shm.loopTo_scalars (s : Shm) (ss : ℝ) (n : ℕ) :
    (s.loopTo ss n).k = s.k ∧ (s.loopTo ss n).mass = s.mass ∧ (s.loopTo ss n).steps = s.steps ∧
    (s.loopTo ss n).time = s.time ∧ (s.loopTo ss n).b = s.b ∧ (s.loopTo ss n).F0 = s.F0 ∧
    (s.loopTo ss n).drive_freq = s.drive_freq ∧ (s.loopTo ss n).step_size = s.step_size ∧
    (s.loopTo ss n).ke = s.ke ∧ (s.loopTo ss n).pe = s.pe ∧
    (s.loopTo ss n).totale = s.totale := by
  induction n with
  | zero => exact ⟨rfl, rfl, rfl, rfl, rfl, rfl, rfl, rfl, rfl, rfl, rfl⟩
  | succ n ih => simpa only [Shm.loopTo, Shm.tick] using ih

theorem Shm.loopTo_sizes (s : Shm) (ss : ℝ) (n : ℕ) :
    (s.loopTo ss n).x.size = s.x.size ∧ (s.loopTo ss n).v.size = s.v.size ∧
    (s.loopTo ss n).a.size = s.a.size ∧ (s.loopTo ss n).t.size = s.t.size := by
  induction n with
  | zero => exact ⟨rfl, rfl, rfl, rfl⟩
  | succ n ih => simpa only [Shm.loopTo, Shm.tick, NArr.size_set] using ih

theorem Shm.tick_get_lt (s : Shm) (ss : ℝ) {i j : ℕ} (h : j ≠ i) :
    (s.tick ss i).x.get j = s.x.get j ∧ (s.tick ss i).v.get j = s.v.get j ∧
    (s.tick ss i).a.get j = s.a.get j ∧ (s.tick ss i).t.get j = s.t.get j := by
  refine ⟨?_, ?_, ?_, ?_⟩ <;> simp [Shm.tick, NArr.get_set, h]

theorem Shm.loopTo_stable (s : Shm) (ss : ℝ) {n m j : ℕ} (hnm : n ≤ m) (hj : j ≤ n) :
    (s.loopTo ss m).x.get j = (s.loopTo ss n).x.get j ∧
    (s.loopTo ss m).v.get j = (s.loopTo ss n).v.get j ∧
    (s.loopTo ss m).a.get j = (s.loopTo ss n).a.get j ∧
    (s.loopTo ss m).t.get j = (s.loopTo ss n).t.get j := by
  induction m with
  | zero =>
    have : n = 0 := Nat.le_zero.mp hnm
    subst this
    exact ⟨rfl, rfl, rfl, rfl⟩
  | succ m ih =>
    rcases Nat.lt_or_ge n (m + 1) with hlt | hge
    · have hnm' : n ≤ m := Nat.lt_succ_iff.mp hlt
      have hj' : j ≠ m + 1 := by omega
      have step := Shm.tick_get_lt (s.loopTo ss m) ss hj'
      have prev := ih hnm'
      refine ⟨?_, ?_, ?_, ?_⟩
      · calc (s.loopTo ss (m + 1)).x.get j = (s.loopTo ss m).x.get j := step.1
          _ = (s.loopTo ss n).x.get j := prev.1
      · calc (s.loopTo ss (m + 1)).v.get j = (s.loopTo ss m).v.get j := step.2.1
          _ = (s.loopTo ss n).v.get j := prev.2.1
      · calc (s.loopTo ss (m + 1)).a.get j = (s.loopTo ss m).a.get j := step.2.2.1
          _ = (s.loopTo ss n).a.get j := prev.2.2.1
      · calc (s.loopTo ss (m + 1)).t.get j = (s.loopTo ss m).t.get j := step.2.2.2
          _ = (s.loopTo ss n).t.get j := prev.2.2.2
    · have : n = m + 1 := le_antisymm hnm hge
      subst this
      exact ⟨rfl, rfl, rfl, rfl⟩

theorem Shm.loopTo_rec (s : Shm) (ss : ℝ) {n i : ℕ} (h1 : 1 ≤ i) (h2 : i ≤ n) :
    (s.loopTo ss n).x.get i =
      (s.loopTo ss n).x.get (i - 1) + (s.loopTo ss n).v.get (i - 1) * ss ∧
    (s.loopTo ss n).v.get i = (s.loopTo ss n).v.get (i - 1) +
      (s.F0 * Real.cos (s.drive_freq * (i : ℝ) * ss) -
        s.b * (s.loopTo ss n).v.get (i - 1) - s.k * (s.loopTo ss n).x.get i) * ss / s.mass ∧
    (s.loopTo ss n).a.get i =
      ((s.loopTo ss n).v.get i - (s.loopTo ss n).v.get (i - 1)) / ss ∧
    (s.loopTo ss n).t.get i = (s.loopTo ss n).t.get (i - 1) + ss := by
  obtain ⟨p, rfl⟩ : ∃ p, i = p + 1 := ⟨i - 1, by omega⟩
  have hp1 : p + 1 ≤ n := h2
  have hp : p ≤ n := by omega
  have stbl1 := Shm.loopTo_stable s ss hp1 (le_refl (p + 1))
  have stbl0 := Shm.loopTo_stable s ss hp (le_refl p)
  have hL : s.loopTo ss (p + 1) = (s.loopTo ss p).tick ss (p + 1) := rfl
  have hscal := Shm.loopTo_scalars s ss p
  have hpred : p + 1 - 1 = p := by omega
  rw [hpred]
  have hxnew : (s.loopTo ss n).x.get (p + 1) =
      (s.loopTo ss p).x.get p + (s.loopTo ss p).v.get p * ss := by
    rw [stbl1.1, hL]
    simp [Shm.tick, NArr.get_set]
  have hvnew : (s.loopTo ss n).v.get (p + 1) = (s.loopTo ss p).v.get p +
      (s.F0 * Real.cos (s.drive_freq * ((p + 1 : ℕ) : ℝ) * ss) -
        s.b * (s.loopTo ss p).v.get p - s.k * ((s.loopTo ss p).x.get p +
          (s.loopTo ss p).v.get p * ss)) * ss / s.mass := by
    rw [stbl1.2.1, hL]
    simp [Shm.tick, NArr.get_set, hscal.2.2.2.2.2.1, hscal.2.2.2.2.2.2.1, hscal.2.2.2.2.1,
      hscal.1, hscal.2.1]
  have hanew : (s.loopTo ss n).a.get (p + 1) =
      ((s.loopTo ss n).v.get (p + 1) - (s.loopTo ss p).v.get p) / ss := by
    rw [stbl1.2.2.1, hL, stbl1.2.1, hL]
    simp [Shm.tick, NArr.get_set]
  have htnew : (s.loopTo ss n).t.get (p + 1) = (s.loopTo ss p).t.get p + ss := by
    rw [stbl1.2.2.2, hL]
    simp [Shm.tick, NArr.get_set]
  refine ⟨?_, ?_, ?_, ?_⟩
  · rw [hxnew, stbl0.1, stbl0.2.1]
  · rw [hvnew, hxnew, stbl0.2.1]
  · rw [hanew, stbl0.2.1]
  · rw [htnew, stbl0.2.2.2]

theorem Shm.compshm_scalars (s : Shm) :
    s.compshm.k = s.k ∧ s.compshm.mass = s.mass ∧ s.compshm.steps = s.steps ∧
    s.compshm.time = s.time ∧ s.compshm.b = s.b ∧ s.compshm.F0 = s.F0 ∧
    s.compshm.drive_freq = s.drive_freq ∧
    s.compshm.step_size = some (s.time / (s.steps : ℝ)) ∧
    s.compshm.ke = s.ke ∧ s.compshm.pe = s.pe ∧ s.compshm.totale = s.totale := by
  have h := Shm.loopTo_scalars { s with step_size := some (s.time / (s.steps : ℝ)) }
    (s.time / (s.steps : ℝ)) s.steps
  exact h

theorem Shm.compshm_sizes (s : Shm) :
    s.compshm.x.size = s.x.size ∧ s.compshm.v.size = s.v.size ∧
    s.compshm.a.size = s.a.size ∧ s.compshm.t.size = s.t.size := by
  have h := Shm.loopTo_sizes { s with step_size := some (s.time / (s.steps : ℝ)) }
    (s.time / (s.steps : ℝ)) s.steps
  exact h

theorem Shm.compshm_get0 (s : Shm) :
    s.compshm.x.get 0 = s.x.get 0 ∧ s.compshm.v.get 0 = s.v.get 0 ∧
    s.compshm.a.get 0 = s.a.get 0 ∧ s.compshm.t.get 0 = s.t.get 0 := by
  have h := Shm.loopTo_stable { s with step_size := some (s.time / (s.steps : ℝ)) }
    (s.time / (s.steps : ℝ)) (Nat.zero_le s.steps) (le_refl 0)
  exact h

theorem Shm.compshm_rec (s : Shm) {i : ℕ} (h1 : 1 ≤ i) (h2 : i ≤ s.steps) :
    s.compshm.x.get i =
      s.compshm.x.get (i - 1) + s.compshm.v.get (i - 1) * (s.time / (s.steps : ℝ)) ∧
    s.compshm.v.get i = s.compshm.v.get (i - 1) +
      (s.F0 * Real.cos (s.drive_freq * (i : ℝ) * (s.time / (s.steps : ℝ))) -
        s.b * s.compshm.v.get (i - 1) - s.k * s.compshm.x.get i) *
        (s.time / (s.steps : ℝ)) / s.mass ∧
    s.compshm.a.get i =
      (s.compshm.v.get i - s.compshm.v.get (i - 1)) / (s.time / (s.steps : ℝ)) ∧
    s.compshm.t.get i = s.compshm.t.get (i - 1) + (s.time / (s.steps : ℝ)) := by
  have h := Shm.loopTo_rec { s with step_size := some (s.time / (s.steps : ℝ)) }
    (s.time / (s.steps : ℝ)) h1 h2
  exact h

theorem Shm.compshm_t_linear (s : Shm) (h0 : s.t.get 0 = 0) :
    ∀ i, i ≤ s.steps → s.compshm.t.get i = (i : ℝ) * (s.time / (s.steps : ℝ)) := by
  intro i
  induction i with
  | zero =>
    intro _
    rw [(Shm.compshm_get0 s).2.2.2, h0]
    simp
  | succ p ih =>
    intro hle
    have hrec := (Shm.compshm_rec s (Nat.le_add_left 1 p) hle).2.2.2
    have hp : p + 1 - 1 = p := by omega
    rw [hp] at hrec
    rw [hrec, ih (by omega)]
    push_cast
    ring

theorem List.foldl_max_init_le (l : List ℝ) (init : ℝ) : init ≤ l.foldl max init := by
  induction l generalizing init with
  | nil => exact le_refl init
  | cons a l ih =>
    calc init ≤ max init a := le_max_left init a
      _ ≤ List.foldl max (max init a) l := ih (max init a)
      _ = List.foldl max init (a :: l) := rfl

theorem List.mem_le_foldl_max (l : List ℝ) (init : ℝ) {r : ℝ} (hr : r ∈ l) :
    r ≤ l.foldl max init := by
  induction l generalizing init with
  | nil => exact absurd hr (List.not_mem_nil r)
  | cons a l ih =>
    rcases List.mem_cons.mp hr with h | h
    · subst h
      calc r ≤ max init r := le_max_right init r
        _ ≤ List.foldl max (max init r) l := List.foldl_max_init_le l (max init r)
    · exact ih (max init a) h

theorem List.foldl_max_eq_init_or_mem (l : List ℝ) (init : ℝ) :
    l.foldl max init = init ∨ l.foldl max init ∈ l := by
  induction l generalizing init with
  | nil => exact Or.inl rfl
  | cons a l ih =>
    rcases ih (max init a) with h | h
    · rcases max_choice init a with hm | hm
      · exact Or.inl (by rw [List.foldl_cons, h, hm])
      · exact Or.inr (by rw [List.foldl_cons, h, hm]; exact List.mem_cons_self a l)
    · exact Or.inr (List.mem_cons_of_mem a h)

theorem NArr.le_maxVal (a : NArr) {i : ℕ} (hi : i < a.size) : a.get i ≤ a.maxVal := by
  unfold NArr.maxVal
  exact List.mem_le_foldl_max _ _ (List.mem_map_of_mem a.val (List.mem_range.mpr hi))

theorem NArr.maxVal_attained (a : NArr) (h : 0 < a.size) :
    ∃ i, i < a.size ∧ a.maxVal = a.get i := by
  unfold NArr.maxVal
  rcases List.foldl_max_eq_init_or_mem ((List.range a.size).map a.val) (a.val 0) with hc | hc
  · exact ⟨0, h, hc⟩
  · rcases List.mem_map.mp hc with ⟨i, hi, hv⟩
    exact ⟨i, List.mem_range.mp hi, hv.symm⟩

theorem noenergyFrom_of_none (time : ℝ) (t te : NArr) (steps : ℕ) :
    ∀ i, (∀ j, i ≤ j → j < steps → ¬ te.get j ≤ te.get 0 * 0.01) →
      noenergyFrom time t te steps i = time := by
  have key : ∀ d i, steps - i ≤ d →
      (∀ j, i ≤ j → j < steps → ¬ te.get j ≤ te.get 0 * 0.01) →
      noenergyFrom time t te steps i = time := by
    intro d
    induction d with
    | zero =>
      intro i hd _
      rw [noenergyFrom, dif_neg (by omega)]
    | succ d ih =>
      intro i hd hno
      by_cases h : i < steps
      · rw [noenergyFrom, dif_pos h, if_neg (hno i le_rfl h)]
        exact ih (i + 1) (by omega) (fun j hj1 hj2 => hno j (by omega) hj2)
      · rw [noenergyFrom, dif_neg h]
  intro i hno
  exact key (steps - i) i le_rfl hno

theorem noenergyFrom_of_hit (time : ℝ) (t te : NArr) (steps : ℕ) :
    ∀ i i₀, i ≤ i₀ → i₀ < steps → te.get i₀ ≤ te.get 0 * 0.01 →
      (∀ j, i ≤ j → j < i₀ → ¬ te.get j ≤ te.get 0 * 0.01) →
      noenergyFrom time t te steps i = t.get i₀ := by
  have key : ∀ d i i₀, i₀ - i ≤ d → i ≤ i₀ → i₀ < steps → te.get i₀ ≤ te.get 0 * 0.01 →
      (∀ j, i ≤ j → j < i₀ → ¬ te.get j ≤ te.get 0 * 0.01) →
      noenergyFrom time t te steps i = t.get i₀ := by
    intro d
    induction d with
    | zero =>
      intro i i₀ hd hii hlt hP _
      have heq : i = i₀ := by omega
      subst heq
      rw [noenergyFrom, dif_pos hlt, if_pos hP]
    | succ d ih =>
      intro i i₀ hd hii hlt hP hmin
      by_cases heq : i = i₀
      · subst heq
        rw [noenergyFrom, dif_pos hlt, if_pos hP]
      · have hi : i < steps := by omega
        rw [noenergyFrom, dif_pos hi, if_neg (hmin i le_rfl (by omega))]
        exact ih (i + 1) i₀ (by omega) (by omega) hlt hP
          (fun j hj1 hj2 => hmin j (by omega) hj2)
  intro i i₀ hii hlt hP hmin
  exact key (i₀ - i) i i₀ le_rfl hii hlt hP hmin

theorem shmA_traj :
    shmA.compshm.x.get 0 = 1 ∧ shmA.compshm.v.get 0 = 0 ∧
    shmA.compshm.x.get 1 = 1 ∧ shmA.compshm.v.get 1 = -1 ∧
    shmA.compshm.x.get 2 = 0 ∧ shmA.compshm.v.get 2 = -1 ∧
    shmA.compshm.x.get 3 = -1 ∧ shmA.compshm.v.get 3 = 0 := by
  have hss : shmA.time / (shmA.steps : ℝ) = 1 := by norm_num [shmA, Shm.init]
  have hx0 : shmA.compshm.x.get 0 = 1 := by
    rw [(Shm.compshm_get0 shmA).1]
    simp [shmA, Shm.init, NArr.get_set]
  have hv0 : shmA.compshm.v.get 0 = 0 := by
    rw [(Shm.compshm_get0 shmA).2.1]
    simp [shmA, Shm.init, NArr.get_set]
  have hk : shmA.k = 1 := rfl
  have hm : shmA.mass = 1 := rfl
  have hb : shmA.b = 0 := rfl
  have hF : shmA.F0 = 0 := rfl
  have hsteps : shmA.steps = 4 := rfl
  obtain ⟨e1x, e1v, _, _⟩ := Shm.compshm_rec shmA (i := 1) le_rfl (by rw [hsteps]; norm_num)
  rw [hss] at e1x e1v
  rw [hk, hm, hb, hF] at e1v
  norm_num [hx0, hv0] at e1x
  norm_num [hv0, e1x] at e1v
  obtain ⟨e2x, e2v, _, _⟩ := Shm.compshm_rec shmA (i := 2) (by norm_num) (by rw [hsteps]; norm_num)
  rw [hss] at e2x e2v
  rw [hk, hm, hb, hF] at e2v
  norm_num [e1x, e1v] at e2x
  norm_num [e1v, e2x] at e2v
  obtain ⟨e3x, e3v, _, _⟩ := Shm.compshm_rec shmA (i := 3) (by norm_num) (by rw [hsteps]; norm_num)
  rw [hss] at e3x e3v
  rw [hk, hm, hb, hF] at e3v
  norm_num [e2x, e2v] at e3x
  norm_num [e2v, e3x] at e3v
  exact ⟨hx0, hv0, e1x, e1v, e2x, e2v, e3x, e3v⟩

/-- C1: Shm.compshm (integrate) first recomputes step_size = time / steps, then every
tick i in 1..steps satisfies the Euler-Cromer recurrences of the source loop, the
velocity update reading the already-updated position[i] (semi-implicit coupling),
then acceleration[i] and time[i]; for springConstant=1, mass=1, initialPosition=1,
initialVelocity=0, stepCount=4, totalTime=4 the result has position[1] = 1.0 and
velocity[1] = -1.0. -/
theorem C1_euler_cromer_step (s : Shm) (i : ℕ) (h1 : 1 ≤ i) (h2 : i ≤ s.steps) :
    s.compshm.step_size = some (s.time / (s.steps : ℝ)) ∧
    s.compshm.x.get i =
      s.compshm.x.get (i - 1) + s.compshm.v.get (i - 1) * (s.time / (s.steps : ℝ)) ∧
    s.compshm.v.get i = s.compshm.v.get (i - 1) +
      (s.F0 * Real.cos (s.drive_freq * (i : ℝ) * (s.time / (s.steps : ℝ))) -
        s.b * s.compshm.v.get (i - 1) - s.k * s.compshm.x.get i) *
        (s.time / (s.steps : ℝ)) / s.mass ∧
    s.compshm.a.get i =
      (s.compshm.v.get i - s.compshm.v.get (i - 1)) / (s.time / (s.steps : ℝ)) ∧
    s.compshm.t.get i = s.compshm.t.get (i - 1) + (s.time / (s.steps : ℝ)) ∧
    shmA.compshm.x.get 1 = 1 ∧ shmA.compshm.v.get 1 = -1 := by
  obtain ⟨hx, hv, ha, ht⟩ := Shm.compshm_rec s h1 h2
  exact ⟨(Shm.compshm_scalars s).2.2.2.2.2.2.2.1, hx, hv, ha, ht,
    shmA_traj.2.2.1, shmA_traj.2.2.2.1⟩

/-- C1 witness: the recurrences instantiated at tick 1 of the Scenario A model. -/
theorem C1_euler_cromer_step_witness :
    (1 : ℕ) ≤ shmA.steps ∧ shmA.compshm.x.get 1 = 1 ∧ shmA.compshm.v.get 1 = -1 := by
  have hsteps : shmA.steps = 4 := rfl
  have h := C1_euler_cromer_step shmA 1 le_rfl (by rw [hsteps]; norm_num)
  exact ⟨by rw [hsteps]; norm_num, h.2.2.2.2.2⟩

/-- C6: Shm.__init__ forces the stored drive_freq to 0.0 whenever the supplied
drivingForceAmplitude F0 is 0.0, and stores the supplied drive_freq as given when
F0 is nonzero. -/
theorem C6_drive_freq_forced (k m x0 v0 : ℝ) (st : ℕ) (ti b F0 df : ℝ) :
    (F0 = 0 → (Shm.init k m x0 v0 st ti b F0 df).drive_freq = 0) ∧
    (F0 ≠ 0 → (Shm.init k m x0 v0 st ti b F0 df).drive_freq = df) := by
  constructor
  · intro h
    simp [Shm.init, h]
  · intro h
    simp [Shm.init, h]

/-- C6 witness: F0 = 0 with nonzero drive_freq argument 7 stores 0;
F0 = 2 stores the supplied 7. -/
theorem C6_drive_freq_forced_witness :
    (Shm.init 1 1 1 0 4 4 0 0 7).drive_freq = 0 ∧
    (Shm.init 1 1 1 0 4 4 0 2 7).drive_freq = 7 :=
  ⟨(C6_drive_freq_forced 1 1 1 0 4 4 0 0 7).1 rfl,
    (C6_drive_freq_forced 1 1 1 0 4 4 0 2 7).2 (by norm_num)⟩

/-- C10: construction performs no validation: for every argument tuple, including
nonpositive springConstant/mass and the GUI's Shm(0, 0, 0), the constructor is a
total function that stores the arguments, allocates the four zero-filled arrays
of length steps + 1 and sets the index-0 initial conditions. -/
theorem C10_constructor_unvalidated (k m x0 v0 : ℝ) (st : ℕ) (ti b F0 df : ℝ) :
    (Shm.init k m x0 v0 st ti b F0 df).k = k ∧
    (Shm.init k m x0 v0 st ti b F0 df).mass = m ∧
    (Shm.init k m x0 v0 st ti b F0 df).steps = st ∧
    (Shm.init k m x0 v0 st ti b F0 df).time = ti ∧
    (Shm.init k m x0 v0 st ti b F0 df).b = b ∧
    (Shm.init k m x0 v0 st ti b F0 df).F0 = F0 ∧
    (Shm.init k m x0 v0 st ti b F0 df).x.size = st + 1 ∧
    (Shm.init k m x0 v0 st ti b F0 df).v.size = st + 1 ∧
    (Shm.init k m x0 v0 st ti b F0 df).a.size = st + 1 ∧
    (Shm.init k m x0 v0 st ti b F0 df).t.size = st + 1 ∧
    (Shm.init k m x0 v0 st ti b F0 df).x.get 0 = x0 ∧
    (Shm.init k m x0 v0 st ti b F0 df).v.get 0 = v0 ∧
    (Shm.init k m x0 v0 st ti b F0 df).a.get 0 = 0 ∧
    (Shm.init k m x0 v0 st ti b F0 df).t.get 0 = 0 ∧
    (∀ i, 1 ≤ i →
      (Shm.init k m x0 v0 st ti b F0 df).x.get i = 0 ∧
      (Shm.init k m x0 v0 st ti b F0 df).v.get i = 0 ∧
      (Shm.init k m x0 v0 st ti b F0 df).a.get i = 0 ∧
      (Shm.init k m x0 v0 st ti b F0 df).t.get i = 0) := by
  refine ⟨rfl, rfl, rfl, rfl, rfl, rfl, rfl, rfl, rfl, rfl, ?_, ?_, ?_, ?_, ?_⟩
  · simp [Shm.init]
  · simp [Shm.init]
  · simp [Shm.init]
  · simp [Shm.init]
  · intro i hi
    have hne : i ≠ 0 := by omega
    refine ⟨?_, ?_, ?_, ?_⟩ <;> simp [Shm.init, NArr.get_set, hne]

/-- C10 witness: the GUI's Shm(0, 0, 0) (defaults steps=10000, time=10.0,
drive_freq=0.1) stores k = 0 and mass = 0, allocates length-10001 arrays, and the
non-initial entries are zero. -/
theorem C10_constructor_unvalidated_witness :
    (Shm.init 0 0 0 0 10000 10 0 0 0.1).k = 0 ∧
    (Shm.init 0 0 0 0 10000 10 0 0 0.1).mass = 0 ∧
    (Shm.init 0 0 0 0 10000 10 0 0 0.1).x.size = 10001 ∧
    (Shm.init 0 0 0 0 10000 10 0 0 0.1).x.get 1 = 0 := by
  obtain ⟨hk, hm, -, -, -, -, hxs, -, -, -, -, -, -, -, hall⟩ :=
    C10_constructor_unvalidated 0 0 0 0 10000 10 0 0 0.1
  exact ⟨hk, hm, hxs, (hall 1 le_rfl).1⟩

/-- C8: Shm.compenergy computes, elementwise for every index over the full
trajectory of length stepCount + 1, ke[i] = 0.5 * mass * v[i]^2,
pe[i] = 0.5 * k * x[i]^2 and totale[i] = ke[i] + pe[i], as a function of the
current trajectory arrays and current mass / springConstant only, and changes no
other state field. -/
theorem C8_energy_elementwise (s : Shm) (hv : s.v.size = s.steps + 1)
    (hx : s.x.size = s.steps + 1) :
    (∃ keA peA teA, s.compenergy.ke = some keA ∧ s.compenergy.pe = some peA ∧
      s.compenergy.totale = some teA ∧
      keA.size = s.steps + 1 ∧ peA.size = s.steps + 1 ∧ teA.size = s.steps + 1 ∧
      (∀ i, keA.get i = 0.5 * s.mass * s.v.get i ^ 2) ∧
      (∀ i, peA.get i = 0.5 * s.k * s.x.get i ^ 2) ∧
      (∀ i, teA.get i = keA.get i + peA.get i)) ∧
    s.compenergy.k = s.k ∧ s.compenergy.mass = s.mass ∧ s.compenergy.steps = s.steps ∧
    s.compenergy.time = s.time ∧ s.compenergy.b = s.b ∧ s.compenergy.F0 = s.F0 ∧
    s.compenergy.drive_freq = s.drive_freq ∧ s.compenergy.step_size = s.step_size ∧
    s.compenergy.x = s.x ∧ s.compenergy.v = s.v ∧ s.compenergy.a = s.a ∧
    s.compenergy.t = s.t := by
  refine ⟨⟨_, _, _, rfl, rfl, rfl, ?_, ?_, ?_, ?_, ?_, ?_⟩,
    rfl, rfl, rfl, rfl, rfl, rfl, rfl, rfl, rfl, rfl, rfl, rfl⟩
  · simpa using hv
  · simpa using hx
  · simpa using hv
  · intro i
    simp [mul_assoc]
  · intro i
    simp [mul_assoc]
  · intro i
    simp

/-- C5: after the integration loop, Main.py's computeshm (integrate) recomputes the
summary statistics amp = max(position), maxv = max(velocity), maxa =
max(acceleration) as maxima over the full arrays including index 0, as part of
every call. -/
theorem C5_summary_stats (m : MShm) (hx : 0 < m.x.size) (hv : 0 < m.v.size)
    (ha : 0 < m.a.size) :
    ∃ A V W, m.computeshm.amp = some A ∧ m.computeshm.maxv = some V ∧
      m.computeshm.maxa = some W ∧
      (∀ i, i < m.computeshm.x.size → m.computeshm.x.get i ≤ A) ∧
      (∃ i, i < m.computeshm.x.size ∧ A = m.computeshm.x.get i) ∧
      (∀ i, i < m.computeshm.v.size → m.computeshm.v.get i ≤ V) ∧
      (∃ i, i < m.computeshm.v.size ∧ V = m.computeshm.v.get i) ∧
      (∀ i, i < m.computeshm.a.size → m.computeshm.a.get i ≤ W) ∧
      (∃ i, i < m.computeshm.a.size ∧ W = m.computeshm.a.get i) := by
  have hxs : 0 < (m.toShm.compshm).x.size := (Shm.compshm_sizes m.toShm).1.symm ▸ hx
  have hvs : 0 < (m.toShm.compshm).v.size := (Shm.compshm_sizes m.toShm).2.1.symm ▸ hv
  have has : 0 < (m.toShm.compshm).a.size := (Shm.compshm_sizes m.toShm).2.2.1.symm ▸ ha
  refine ⟨(m.toShm.compshm).x.maxVal, (m.toShm.compshm).v.maxVal, (m.toShm.compshm).a.maxVal,
    rfl, rfl, rfl, ?_, ?_, ?_, ?_, ?_, ?_⟩
  · intro i hi
    exact NArr.le_maxVal _ hi
  · exact NArr.maxVal_attained _ hxs
  · intro i hi
    exact NArr.le_maxVal _ hi
  · exact NArr.maxVal_attained _ hvs
  · intro i hi
    exact NArr.le_maxVal _ hi
  · exact NArr.maxVal_attained _ has

/-- C5 witness: the statistics of the Scenario A instance of Main.py's class are
set and bound the full position array. -/
theorem C5_summary_stats_witness :
    ∃ A, mshmA.computeshm.amp = some A ∧
      (∀ i, i < mshmA.computeshm.x.size → mshmA.computeshm.x.get i ≤ A) := by
  obtain ⟨A, V, W, hA, -, -, hbound, -, -, -, -, -⟩ :=
    C5_summary_stats mshmA (by simp [mshmA, MShm.init]) (by simp [mshmA, MShm.init])
      (by simp [mshmA, MShm.init])
  exact ⟨A, hA, hbound⟩


/-- C9: parameter mutation does not auto-trigger recomputation: every successful
Shm.editshm call leaves the trajectory entries at every index i ≥ 1 unchanged
(init_pos and init_v write index 0 directly and nothing else); only an explicit
compshm call rewrites them. -/
theorem C9_no_auto_recompute (s : Shm) (p : String) (value : ℝ) (s' : Shm)
    (h : s.editshm p value = Except.ok s') (i : ℕ) (hi : 1 ≤ i) :
    s'.x.get i = s.x.get i ∧ s'.v.get i = s.v.get i ∧
    s'.a.get i = s.a.get i ∧ s'.t.get i = s.t.get i := by
  have hne : i ≠ 0 := by omega
  rw [Shm.editshm] at h
  by_cases c0 : value < 0 ∧ p ≠ ("F0") ∧ p ≠ ("init_v") ∧ p ≠ ("init_pos")
  · rw [if_pos c0] at h
    exact Except.noConfusion h
  rw [if_neg c0] at h
  by_cases c1 : p = ("k")
  · rw [if_pos c1] at h
    by_cases z : value = 0
    · rw [if_pos z] at h
      exact Except.noConfusion h
    · rw [if_neg z] at h
      injection h with h2
      subst h2
      exact ⟨rfl, rfl, rfl, rfl⟩
  rw [if_neg c1] at h
  by_cases c2 : p = ("mass")
  · rw [if_pos c2] at h
    by_cases z : value = 0
    · rw [if_pos z] at h
      exact Except.noConfusion h
    · rw [if_neg z] at h
      injection h with h2
      subst h2
      exact ⟨rfl, rfl, rfl, rfl⟩
  rw [if_neg c2] at h
  by_cases c3 : p = ("steps")
  · rw [if_pos c3] at h
    by_cases z : value = 0
    · rw [if_pos z] at h
      exact Except.noConfusion h
    · rw [if_neg z] at h
      injection h with h2
      subst h2
      exact ⟨rfl, rfl, rfl, rfl⟩
  rw [if_neg c3] at h
  by_cases c4 : p = ("time")
  · rw [if_pos c4] at h
    by_cases z : value = 0
    · rw [if_pos z] at h
      exact Except.noConfusion h
    · rw [if_neg z] at h
      injection h with h2
      subst h2
      exact ⟨rfl, rfl, rfl, rfl⟩
  rw [if_neg c4] at h
  by_cases c5 : p = ("b")
  · rw [if_pos c5] at h
    injection h with h2
    subst h2
    exact ⟨rfl, rfl, rfl, rfl⟩
  rw [if_neg c5] at h
  by_cases c6 : p = ("F0")
  · rw [if_pos c6] at h
    injection h with h2
    subst h2
    exact ⟨rfl, rfl, rfl, rfl⟩
  rw [if_neg c6] at h
  by_cases c7 : p = ("drive_freq")
  · rw [if_pos c7] at h
    injection h with h2
    subst h2
    exact ⟨rfl, rfl, rfl, rfl⟩
  rw [if_neg c7] at h
  by_cases c8 : p = ("init_pos")
  · rw [if_pos c8] at h
    injection h with h2
    subst h2
    exact ⟨by simp [NArr.get_set, hne], rfl, rfl, rfl⟩
  rw [if_neg c8] at h
  by_cases c9 : p = ("init_v")
  · rw [if_pos c9] at h
    injection h with h2
    subst h2
    exact ⟨rfl, by simp [NArr.get_set, hne], rfl, rfl⟩
  rw [if_neg c9] at h
  by_cases c10 : p = ("step_size")
  · rw [if_pos c10] at h
    injection h with h2
    subst h2
    exact ⟨rfl, rfl, rfl, rfl⟩
  rw [if_neg c10] at h
  injection h with h2
  subst h2
  exact ⟨rfl, rfl, rfl, rfl⟩

/-- C9 witness: a successful edit of the damping constant leaves position[1]
untouched. -/
theorem C9_no_auto_recompute_witness :
    shmDefault.editshm ("b") 1 = Except.ok { shmDefault with b := 1 } ∧
    ({ shmDefault with b := 1 } : Shm).x.get 1 = shmDefault.x.get 1 := by
  have hEdit : shmDefault.editshm ("b") 1 = Except.ok { shmDefault with b := 1 } := by
    rw [Shm.editshm, if_neg (by norm_num), if_neg (by decide), if_neg (by decide),
      if_neg (by decide), if_neg (by decide), if_pos rfl]
  exact ⟨hEdit, (C9_no_auto_recompute shmDefault ("b") 1 _ hEdit 1 le_rfl).1⟩

/-- C3: Shm.editshm rejects value ≤ 0 with ValueError for k (springConstant),
mass, steps (stepCount) and time (totalTime) — in the source the raise precedes
every assignment, so the rejected call leaves the prior state unchanged — and
stores the value on success (steps stores the integer truncation). -/
theorem C3_positivity_validation (s : Shm) (v : ℝ) :
    (v ≤ 0 → ∃ e, s.editshm ("k") v = Except.error e) ∧
    (0 < v → s.editshm ("k") v = Except.ok { s with k := v }) ∧
    (v ≤ 0 → ∃ e, s.editshm ("mass") v = Except.error e) ∧
    (0 < v → s.editshm ("mass") v = Except.ok { s with mass := v }) ∧
    (v ≤ 0 → ∃ e, s.editshm ("steps") v = Except.error e) ∧
    (0 < v → s.editshm ("steps") v = Except.ok { s with steps := (⌊v⌋).toNat }) ∧
    (v ≤ 0 → ∃ e, s.editshm ("time") v = Except.error e) ∧
    (0 < v → s.editshm ("time") v = Except.ok { s with time := v }) := by
  refine ⟨?_, ?_, ?_, ?_, ?_, ?_, ?_, ?_⟩
  · intro hv
    rcases lt_or_eq_of_le hv with hlt | heq
    · exact ⟨_, by rw [Shm.editshm, if_pos ⟨hlt, by decide, by decide, by decide⟩]⟩
    · exact ⟨_, by rw [Shm.editshm, if_neg (fun hc => absurd hc.1 (by rw [← heq]; norm_num)),
        if_pos rfl, if_pos heq]⟩
  · intro hv
    rw [Shm.editshm, if_neg (fun hc => absurd hc.1 (by linarith)), if_pos rfl,
      if_neg (by intro hz; rw [hz] at hv; exact lt_irrefl 0 hv)]
  · intro hv
    rcases lt_or_eq_of_le hv with hlt | heq
    · exact ⟨_, by rw [Shm.editshm, if_pos ⟨hlt, by decide, by decide, by decide⟩]⟩
    · exact ⟨_, by rw [Shm.editshm, if_neg (fun hc => absurd hc.1 (by rw [← heq]; norm_num)),
        if_neg (by decide), if_pos rfl, if_pos heq]⟩
  · intro hv
    rw [Shm.editshm, if_neg (fun hc => absurd hc.1 (by linarith)), if_neg (by decide),
      if_pos rfl, if_neg (by intro hz; rw [hz] at hv; exact lt_irrefl 0 hv)]
  · intro hv
    rcases lt_or_eq_of_le hv with hlt | heq
    · exact ⟨_, by rw [Shm.editshm, if_pos ⟨hlt, by decide, by decide, by decide⟩]⟩
    · exact ⟨_, by rw [Shm.editshm, if_neg (fun hc => absurd hc.1 (by rw [← heq]; norm_num)),
        if_neg (by decide), if_neg (by decide), if_pos rfl, if_pos heq]⟩
  · intro hv
    rw [Shm.editshm, if_neg (fun hc => absurd hc.1 (by linarith)), if_neg (by decide),
      if_neg (by decide), if_pos rfl,
      if_neg (by intro hz; rw [hz] at hv; exact lt_irrefl 0 hv)]
  · intro hv
    rcases lt_or_eq_of_le hv with hlt | heq
    · exact ⟨_, by rw [Shm.editshm, if_pos ⟨hlt, by decide, by decide, by decide⟩]⟩
    · exact ⟨_, by rw [Shm.editshm, if_neg (fun hc => absurd hc.1 (by rw [← heq]; norm_num)),
        if_neg (by decide), if_neg (by decide), if_neg (by decide), if_pos rfl,
        if_pos heq]⟩
  · intro hv
    rw [Shm.editshm, if_neg (fun hc => absurd hc.1 (by linarith)), if_neg (by decide),
      if_neg (by decide), if_neg (by decide), if_pos rfl,
      if_neg (by intro hz; rw [hz] at hv; exact lt_irrefl 0 hv)]

/-- C3 witness: k rejects -1 and accepts 2; mass rejects 0; time accepts 2. -/
theorem C3_positivity_validation_witness :
    (∃ e, shmDefault.editshm ("k") (-1) = Except.error e) ∧
    shmDefault.editshm ("k") 2 = Except.ok { shmDefault with k := 2 } ∧
    (∃ e, shmDefault.editshm ("mass") 0 = Except.error e) ∧
    shmDefault.editshm ("time") 2 = Except.ok { shmDefault with time := 2 } :=
  ⟨(C3_positivity_validation shmDefault (-1)).1 (by norm_num),
    (C3_positivity_validation shmDefault 2).2.1 (by norm_num),
    (C3_positivity_validation shmDefault 0).2.2.1 le_rfl,
    (C3_positivity_validation shmDefault 2).2.2.2.2.2.2.2 (by norm_num)⟩

/-- C4 counterexample: setParameter("dampingCoefficient", -1) does not succeed:
the global guard of Shm.editshm (source line 75) exempts only F0, init_v and
init_pos from the non-negativity check, so b = -1 raises ValueError, refuting
the claim that any real value is accepted for dampingCoefficient. -/
theorem C4_sign_policy_cex :
    shmDefault.editshm ("b") (-1) = Except.error (ShmError.invalidParameter
      (("Entry value must be non-negative except for initial position, velocity and driving force: ")
        ++ ("b"))) := by
  rw [Shm.editshm, if_pos ⟨by norm_num, by decide, by decide, by decide⟩]

/-- C4 amended: setParameter stores any real value, including negative ones, for
F0 (drivingForceAmplitude) only; for b (dampingCoefficient) and drive_freq
(drivingAngularFrequency) it stores any value ≥ 0 and fails with ValueError on
negative values. -/
theorem C4_sign_policy_amended (s : Shm) (v : ℝ) :
    s.editshm ("F0") v = Except.ok { s with F0 := v } ∧
    (0 ≤ v → s.editshm ("b") v = Except.ok { s with b := v }) ∧
    (v < 0 → ∃ e, s.editshm ("b") v = Except.error e) ∧
    (0 ≤ v → s.editshm ("drive_freq") v = Except.ok { s with drive_freq := v }) ∧
    (v < 0 → ∃ e, s.editshm ("drive_freq") v = Except.error e) := by
  refine ⟨?_, ?_, ?_, ?_, ?_⟩
  · rw [Shm.editshm, if_neg (fun hc => hc.2.1 rfl), if_neg (by decide), if_neg (by decide),
      if_neg (by decide), if_neg (by decide), if_neg (by decide), if_pos rfl]
  · intro hv
    rw [Shm.editshm, if_neg (fun hc => absurd hc.1 (not_lt.mpr hv)), if_neg (by decide),
      if_neg (by decide), if_neg (by decide), if_neg (by decide), if_pos rfl]
  · intro hv
    exact ⟨_, by rw [Shm.editshm, if_pos ⟨hv, by decide, by decide, by decide⟩]⟩
  · intro hv
    rw [Shm.editshm, if_neg (fun hc => absurd hc.1 (not_lt.mpr hv)), if_neg (by decide),
      if_neg (by decide), if_neg (by decide), if_neg (by decide), if_neg (by decide),
      if_neg (by decide), if_pos rfl]
  · intro hv
    exact ⟨_, by rw [Shm.editshm, if_pos ⟨hv, by decide, by decide, by decide⟩]⟩

/-- C4 witness: F0 accepts -2; b accepts 3; drive_freq rejects -1. -/
theorem C4_sign_policy_amended_witness :
    shmDefault.editshm ("F0") (-2) = Except.ok { shmDefault with F0 := -2 } ∧
    shmDefault.editshm ("b") 3 = Except.ok { shmDefault with b := 3 } ∧
    (∃ e, shmDefault.editshm ("drive_freq") (-1) = Except.error e) :=
  ⟨(C4_sign_policy_amended shmDefault (-2)).1,
    (C4_sign_policy_amended shmDefault 3).2.1 (by norm_num),
    (C4_sign_policy_amended shmDefault (-1)).2.2.2.2 (by norm_num)⟩

/-- C2 counterexample: on the default-constructed model (stepCount 10000, arrays
of length 10001), setParameter("stepCount", 500) succeeds and stores 500, but
the four trajectory arrays are not reallocated: after integrate() they still
have length 10001, not 501. -/
theorem C2_stepCount_realloc_cex :
    shmDefault.editshm ("steps") 500 = Except.ok { shmDefault with steps := 500 } ∧
    ({ shmDefault with steps := 500 } : Shm).compshm.x.size = 10001 ∧
    ({ shmDefault with steps := 500 } : Shm).compshm.v.size = 10001 ∧
    ({ shmDefault with steps := 500 } : Shm).compshm.a.size = 10001 ∧
    ({ shmDefault with steps := 500 } : Shm).compshm.t.size = 10001 ∧
    (10001 : ℕ) ≠ 500 + 1 := by
  refine ⟨?_, ?_, ?_, ?_, ?_, by norm_num⟩
  · rw [Shm.editshm, if_neg (by norm_num), if_neg (by decide), if_neg (by decide),
      if_pos rfl, if_neg (by norm_num)]
    norm_num
    decide
  · rw [(Shm.compshm_sizes _).1]
    norm_num [shmDefault, Shm.init]
  · rw [(Shm.compshm_sizes _).2.1]
    norm_num [shmDefault, Shm.init]
  · rw [(Shm.compshm_sizes _).2.2.1]
    norm_num [shmDefault, Shm.init]
  · rw [(Shm.compshm_sizes _).2.2.2]
    norm_num [shmDefault, Shm.init]

/-- C2 amended: a successful setParameter("stepCount", v) (v > 0) stores int(v)
in stepCount but does not reallocate: the four trajectory arrays are left
exactly as they were, so their length stays at its construction-time value
(stepCount changes, the identical-length-stepCount+1 invariant does not survive
the edit in general); a subsequent integrate() preserves those lengths and the
index-0 initial conditions. -/
theorem C2_stepCount_amended (s : Shm) (v : ℝ) (hv : 0 < v) :
    s.editshm ("steps") v = Except.ok { s with steps := (⌊v⌋).toNat } ∧
    ({ s with steps := (⌊v⌋).toNat } : Shm).x = s.x ∧
    ({ s with steps := (⌊v⌋).toNat } : Shm).v = s.v ∧
    ({ s with steps := (⌊v⌋).toNat } : Shm).a = s.a ∧
    ({ s with steps := (⌊v⌋).toNat } : Shm).t = s.t ∧
    ({ s with steps := (⌊v⌋).toNat } : Shm).compshm.x.size = s.x.size ∧
    ({ s with steps := (⌊v⌋).toNat } : Shm).compshm.v.size = s.v.size ∧
    ({ s with steps := (⌊v⌋).toNat } : Shm).compshm.a.size = s.a.size ∧
    ({ s with steps := (⌊v⌋).toNat } : Shm).compshm.t.size = s.t.size ∧
    ({ s with steps := (⌊v⌋).toNat } : Shm).compshm.x.get 0 = s.x.get 0 ∧
    ({ s with steps := (⌊v⌋).toNat } : Shm).compshm.v.get 0 = s.v.get 0 := by
  refine ⟨?_, rfl, rfl, rfl, rfl, (Shm.compshm_sizes _).1, (Shm.compshm_sizes _).2.1,
    (Shm.compshm_sizes _).2.2.1, (Shm.compshm_sizes _).2.2.2, (Shm.compshm_get0 _).1,
    (Shm.compshm_get0 _).2.1⟩
  rw [Shm.editshm, if_neg (fun hc => absurd hc.1 (not_lt.mpr (le_of_lt hv))),
    if_neg (by decide), if_neg (by decide), if_pos rfl, if_neg (ne_of_gt hv)]

/-- C2 amended witness: the edit to 500 steps on the default model, with the
arrays keeping length 10001 across integrate(). -/
theorem C2_stepCount_amended_witness :
    shmDefault.editshm ("steps") 500 =
      Except.ok { shmDefault with steps := (⌊(500 : ℝ)⌋).toNat } ∧
    ({ shmDefault with steps := (⌊(500 : ℝ)⌋).toNat } : Shm).compshm.x.size =
      shmDefault.x.size := by
  have h := C2_stepCount_amended shmDefault 500 (by norm_num)
  exact ⟨h.1, h.2.2.2.2.2.1⟩

/-- C7: for a model with positive totalTime and stepCount and zero initial clock
entry (as every constructed model has), after integrate() and computeEnergy()
the energy-decay cutoff computed by plotenergy equals totalTime when no index
i < stepCount satisfies totale[i] ≤ 0.01 * totale[0], and equals t[i₀] for the
earliest satisfying index i₀ otherwise, in which case it is strictly less than
totalTime. -/
theorem C7_energy_cutoff (s : Shm) (ht : 0 < s.time) (hs : 0 < s.steps)
    (h0 : s.t.get 0 = 0) :
    ∀ te, (s.compshm.compenergy).totale = some te →
      ((∀ i, i < s.steps → ¬ te.get i ≤ te.get 0 * 0.01) →
        (s.compshm.compenergy).plotenergyCut = some s.time) ∧
      (∀ i₀, i₀ < s.steps → te.get i₀ ≤ te.get 0 * 0.01 →
        (∀ j, j < i₀ → ¬ te.get j ≤ te.get 0 * 0.01) →
        (s.compshm.compenergy).plotenergyCut = some (s.compshm.t.get i₀) ∧
        s.compshm.t.get i₀ < s.time) := by
  intro te hte
  have hsc := Shm.compshm_scalars s
  have hEtime : (s.compshm.compenergy).time = s.time := hsc.2.2.2.1
  have hEsteps : (s.compshm.compenergy).steps = s.steps := hsc.2.2.1
  have hcut : (s.compshm.compenergy).plotenergyCut =
      some (noenergyFrom s.time s.compshm.t te s.steps 0) := by
    rw [Shm.plotenergyCut, hte, Option.map_some', hEtime, hEsteps]
    rfl
  constructor
  · intro hno
    rw [hcut, noenergyFrom_of_none s.time s.compshm.t te s.steps 0
      (fun j _ hj2 => hno j hj2)]
  · intro i₀ hi₀ hP hmin
    have hhit := noenergyFrom_of_hit s.time s.compshm.t te s.steps 0 i₀ (Nat.zero_le i₀)
      hi₀ hP (fun j _ hj2 => hmin j hj2)
    have htlin := Shm.compshm_t_linear s h0 i₀ (le_of_lt hi₀)
    have hss : 0 < s.time / (s.steps : ℝ) := div_pos ht (by exact_mod_cast hs)
    have hlt : s.compshm.t.get i₀ < s.time := by
      rw [htlin]
      have h1 : (i₀ : ℝ) < (s.steps : ℝ) := by exact_mod_cast hi₀
      have h2 : (i₀ : ℝ) * (s.time / (s.steps : ℝ)) <
          (s.steps : ℝ) * (s.time / (s.steps : ℝ)) := mul_lt_mul_of_pos_right h1 hss
      have h3 : (s.steps : ℝ) * (s.time / (s.steps : ℝ)) = s.time := by
        field_simp
      linarith
    exact ⟨by rw [hcut, hhit], hlt⟩

/-- C7 witness: on the undamped, undriven Scenario A model the total energy never
falls to 1% of its initial value within the scanned ticks, so the cutoff equals
totalTime. -/
theorem C7_energy_cutoff_witness :
    (shmA.compshm.compenergy).plotenergyCut = some shmA.time := by
  have hte : (shmA.compshm.compenergy).totale =
      some (NArr.add (NArr.smul (0.5 * shmA.compshm.mass) (NArr.sq shmA.compshm.v))
        (NArr.smul (0.5 * shmA.compshm.k) (NArr.sq shmA.compshm.x))) := rfl
  have hsteps : shmA.steps = 4 := rfl
  have harm := C7_energy_cutoff shmA (by norm_num [shmA, Shm.init])
    (by rw [hsteps]; norm_num) (by simp [shmA, Shm.init, NArr.get_set]) _ hte
  apply harm.1
  intro i hi
  rw [hsteps] at hi
  obtain ⟨hx0, hv0, hx1, hv1, hx2, hv2, hx3, hv3⟩ := shmA_traj
  have hm : shmA.compshm.mass = 1 := (Shm.compshm_scalars shmA).2.1
  have hk : shmA.compshm.k = 1 := (Shm.compshm_scalars shmA).1
  interval_cases i <;>
    norm_num [NArr.get_add, NArr.get_smul, NArr.get_sq, hm, hk, hx0, hv0, hx1, hv1,
      hx2, hv2, hx3, hv3]

/-- C8 witness: compenergy on the default model leaves the position array
untouched and yields a kinetic-energy array of length 10001 whose entry 0 is
0.5 * mass * v[0]^2. -/
theorem C8_energy_elementwise_witness :
    shmDefault.compenergy.x = shmDefault.x ∧
    (∃ keA, shmDefault.compenergy.ke = some keA ∧ keA.size = 10001 ∧
      keA.get 0 = 0.5 * shmDefault.mass * shmDefault.v.get 0 ^ 2) := by
  obtain ⟨⟨keA, peA, teA, hke, hpe, hte, hks, hps, hts, hkv, hpv, htv⟩,
      hk, hm, hst, hti, hb, hF, hdf, hsz, hx, hv, ha, htt⟩ :=
    C8_energy_elementwise shmDefault (by norm_num [shmDefault, Shm.init])
      (by norm_num [shmDefault, Shm.init])
  refine ⟨hx, keA, hke, ?_, hkv 0⟩
  rw [hks]
  norm_num [shmDefault, Shm.init]
